import Mathlib

/-!
Verification development for the workflow execution engine
(`src/shared/lib/flow-engine.ts` and its supporting modules).

The engine is embedded shallowly:
* webhook payloads are JSON-like trees (`JValue`); JavaScript `undefined`
  is `Option.none` wherever the source can observe it, `null` is `JValue.jnull`;
* the mutable `ExecutionContext` is threaded explicitly; `Set` insertion
  becomes an append guarded by a membership test (preserving insertion order);
* `throw`/`catch` is an explicit `Option Thrown` channel in each function's
  result; a caught exception is consumed exactly where the source catches it;
* external collaborators (flow repository, `fetch`) are an `Env` record of
  pure functions; execution-log writes (`flowExecutionLogRepository`) have no
  effect on the execution context in the source (all their failures are
  caught and only logged), so they are not part of the state;
* the mutually recursive traversal is indexed by a fuel parameter consumed
  on entry to every engine function; fuel exhaustion returns the context
  unchanged, so every theorem quantifies over (or bounds) the fuel;
* JavaScript numbers are modelled as integers (no claim depends on
  fractional values); `String()`/`Number()` casts are modelled on that basis.
-/

namespace Workflow

/-! ## JSON-like payload values -/

/-- A JSON-like runtime value, as stored in `WebhookEvent.data`.
JavaScript `undefined` is not a `JValue`; it is represented by `Option.none`
at every point where the engine can observe it. -/
inductive JValue where
  | jnull
  | jbool (b : Bool)
  | jnum (n : Int)
  | jstr (s : String)
  | jarr (xs : List JValue)
  | jobj (fields : List (String × JValue))

/-! ## Character-level string helpers

These model the JavaScript string primitives the engine uses
(`trim`, `split('.')`, `startsWith`, `includes`, `String()`, `Number()`).
They recurse structurally over `String.data` so that concrete runs reduce
inside the kernel. -/

/-- Whitespace recognised by `String.prototype.trim` (common subset). -/
def isWhiteChar (c : Char) : Bool :=
  c = ' ' || c = '\t' || c = '\n' || c = '\r'

/-- `trim`: drop whitespace from both ends of a character list. -/
def trimChars (l : List Char) : List Char :=
  ((l.dropWhile isWhiteChar).reverse.dropWhile isWhiteChar).reverse

/-- JavaScript `s.trim()`. -/
def jsTrim (s : String) : String := ⟨trimChars s.data⟩

/-- Emptiness of a string, via its character list. -/
def strEmpty (s : String) : Bool := s.data.isEmpty

/-- JavaScript falsiness for an optional string (`undefined` or `""`). -/
def strFalsy : Option String → Bool
  | none => true
  | some s => strEmpty s

/-- `path.split('.')` on a character list: splits at every dot,
keeping empty segments, like the JavaScript `String.prototype.split`. -/
def splitOnDot : List Char → List (List Char)
  | [] => [[]]
  | c :: cs =>
    if c = '.' then [] :: splitOnDot cs
    else
      match splitOnDot cs with
      | [] => [[c]]
      | w :: ws => (c :: w) :: ws

/-- `path.split('.')` producing strings. -/
def splitPath (s : String) : List String :=
  (splitOnDot s.data).map (fun l => ⟨l⟩)

/-- Decimal digits of a natural number (fuel-indexed so that it stays
structural; the fuel `n + 1` always suffices). -/
def natDigitsAux : Nat → Nat → List Char → List Char
  | 0, _, acc => acc
  | fuel + 1, n, acc =>
    let d := Char.ofNat (48 + n % 10)
    if n < 10 then d :: acc else natDigitsAux fuel (n / 10) (d :: acc)

/-- Decimal rendering of a natural number. -/
def natDecString (n : Nat) : String := ⟨natDigitsAux (n + 1) n []⟩

/-- Decimal rendering of an integer, as JavaScript `String(number)`
renders an integral number. -/
def intDecString (n : Int) : String :=
  if n < 0 then "-" ++ natDecString n.natAbs else natDecString n.toNat

/-- Join a list of strings with a separator. -/
def joinWith (sep : String) : List String → String
  | [] => ""
  | [s] => s
  | s :: rest => s ++ sep ++ joinWith sep rest

/-- Digits of a decimal literal, with JavaScript `Number(string)` integral
semantics: `none` models `NaN`. -/
def parseDigits : List Char → Option Nat → Option Nat
  | [], acc => acc
  | c :: cs, acc =>
    if c.isDigit then
      parseDigits cs (some ((acc.getD 0) * 10 + (c.toNat - 48)))
    else none

/-- JavaScript `Number(string)` restricted to the integral fragment:
whitespace-trimmed empty string is `0`, an optional sign followed by
decimal digits parses, everything else is `NaN` (`none`).
(Fractional, exponent and radix literals are modelled as `NaN`; no engine
claim depends on them.) -/
def parseJsNumber (s : String) : Option Int :=
  match trimChars s.data with
  | [] => some 0
  | '-' :: cs => (parseDigits cs none).map (fun n => -(n : Int))
  | '+' :: cs => (parseDigits cs none).map (fun n => (n : Int))
  | cs => (parseDigits cs none).map (fun n => (n : Int))

mutual
/-- JavaScript `String(value)` on a `JValue`. String escaping questions do
not arise (`String` of a string is the string itself). -/
def jsToString : JValue → String
  | .jnull => "null"
  | .jbool true => "true"
  | .jbool false => "false"
  | .jnum n => intDecString n
  | .jstr s => s
  | .jarr xs => joinWith "," (jsToStringList xs)
  | .jobj _ => "[object Object]"

/-- `Array.prototype.toString` renders elements joined by `","`,
with `null` elements rendered as the empty string. -/
def jsToStringList : List JValue → List String
  | [] => []
  | .jnull :: vs => "" :: jsToStringList vs
  | v :: vs => jsToString v :: jsToStringList vs
end

/-- JavaScript `Number(value)` on a `JValue` (`none` models `NaN`).
Arrays coerce through their string rendering, objects are `NaN`. -/
def jsToNumber : JValue → Option Int
  | .jnull => some 0
  | .jbool b => some (if b then 1 else 0)
  | .jnum n => some n
  | .jstr s => parseJsNumber s
  | .jarr xs => parseJsNumber (jsToString (.jarr xs))
  | .jobj _ => none

/-! ## Data model (`entities/flow`, `entities/webhook`) -/

/-- `ConditionNodeData.value : string | number`. -/
inductive CondValue where
  | str (s : String)
  | num (n : Int)
deriving DecidableEq

/-- `String(conditionValue)`; the field is optional in the source type,
and `String(undefined)` is `"undefined"`. -/
def condValueToString : Option CondValue → String
  | none => "undefined"
  | some (.str s) => s
  | some (.num n) => intDecString n

/-- `Number(conditionValue)`; `Number(undefined)` is `NaN`. -/
def condValueToNumber : Option CondValue → Option Int
  | none => none
  | some (.str s) => parseJsNumber s
  | some (.num n) => some n

/-- `TriggerNodeData`. -/
structure TriggerNodeData where
  event : String
deriving DecidableEq

/-- `ConditionNodeData` (field-based variant; every field is optional in
the source type). -/
structure ConditionNodeData where
  field : Option String
  operator : Option String
  value : Option CondValue
deriving DecidableEq

/-- The dynamic `config` record of an action node, with every key the
engine ever reads. A JavaScript-`undefined` config is the all-`none`
record (the source only reads it through `config?.key`). -/
structure ActionConfig where
  message : Option String := none
  url : Option String := none
  method : Option String := none
  email : Option String := none
  flowId : Option String := none
  body : Option JValue := none
  data : Option (List (String × JValue)) := none

/-- `ActionNodeData`; `type` is checked for falsiness at runtime. -/
structure ActionNodeData where
  type : Option String
  config : ActionConfig

/-- The per-node `data` payload, a tagged union as in the source types;
`empty` stands for an `End` node's (or absent) data. -/
inductive NodeData where
  | trigger (d : TriggerNodeData)
  | condition (d : ConditionNodeData)
  | action (d : ActionNodeData)
  | empty

/-- `(node.data as TriggerNodeData).event`: on a non-trigger payload the
cast yields JavaScript `undefined`. -/
def NodeData.eventField : NodeData → Option String
  | .trigger d => some d.event
  | _ => none

/-- `(node.data as ConditionNodeData)`: on a non-condition payload every
field reads as `undefined`. -/
def NodeData.asCondition : NodeData → ConditionNodeData
  | .condition d => d
  | _ => ⟨none, none, none⟩

/-- `(node.data as ActionNodeData)`: on a non-action payload every field
reads as `undefined`. -/
def NodeData.asAction : NodeData → ActionNodeData
  | .action d => d
  | _ => ⟨none, {}⟩

/-- A flow graph node. -/
structure Node where
  id : String
  type : String
  data : NodeData

/-- A flow graph edge. -/
structure Edge where
  id : String
  source : String
  target : String
  sourceHandle : Option String
deriving DecidableEq

/-- A flow definition (immutable snapshot for one run). -/
structure Flow where
  id : String
  name : String
  active : Bool
  nodes : List Node
  edges : List Edge

/-- The inbound webhook event; metadata fields the engine never reads
(`version`, `occurredAt`, `processed`, `createdAt`) are elided. -/
structure WebhookEvent where
  id : String
  event : String
  data : List (String × JValue)

/-- `ExecutionContext`: the per-run mutable state.
`executedNodes` models the insertion-ordered `Set<string>`. -/
structure ExecutionContext where
  webhookData : WebhookEvent
  executedNodes : List String
  errors : List String
  flowCallStack : List String
  depth : Nat

/-- `FlowExecutionResult`. -/
structure FlowExecutionResult where
  success : Bool
  executedNodes : List String
  errors : List String

/-- A raised JavaScript exception, as the engine distinguishes them:
`ValidationError` (with its `field`) versus a generic `Error`. -/
inductive Thrown where
  | validation (msg : String) (fieldName : String)
  | err (msg : String)

/-- `error.message` of a thrown exception. -/
def Thrown.message : Thrown → String
  | .validation m _ => m
  | .err m => m

/-- Outcome of an outbound `fetch` call, as observed by the engine:
a 2xx response, a non-ok response with status and body text, an
`AbortError` from the timeout, or another network failure. -/
inductive HttpOutcome where
  | ok (status : Nat)
  | httpFail (status : Nat) (body : String)
  | abort
  | failure (msg : String)

/-- External collaborators: `flowRepository.findById` and `fetch`
(url, method, optional interpolated body). Execution-log writes are not
modelled: every one of their failure paths is caught and only logged. -/
structure Env where
  findFlow : String → Option Flow
  fetch : String → String → Option String → HttpOutcome

/-! ## Constants (`shared/lib/constants.ts`) -/

/-- `MAX_FLOW_DEPTH`. -/
def MAX_FLOW_DEPTH : Nat := 5

/-- `HTTP_TIMEOUT` (milliseconds). -/
def HTTP_TIMEOUT : Nat := 30000

/-! ## Path Resolver (`getNestedValue`, `interpolateVariables`) -/

/-- First-match lookup in a JavaScript object's property list. -/
def recLookup (fields : List (String × JValue)) (k : String) : Option JValue :=
  (fields.find? (fun p => p.1 == k)).map (fun p => p.2)

/-- Indexing a JavaScript array with a (string) property key: a decimal
index in range yields the element, anything else is `undefined`
(the engine never reads `length` through a condition path). -/
def arrIndex (xs : List JValue) (k : String) : Option JValue :=
  match parseDigits k.data none with
  | some i => xs.get? i
  | none => none

/-- The loop body of `getNestedValue`: for each key, `null`/`undefined`
and non-object intermediates yield `undefined`, objects and arrays are
indexed. The terminal value is returned as-is (it may be `null`). -/
def walkKeys : Option JValue → List String → Option JValue
  | cur, [] => cur
  | none, _ :: _ => none
  | some JValue.jnull, _ :: _ => none
  | some (JValue.jobj fields), k :: ks => walkKeys (recLookup fields k) ks
  | some (JValue.jarr xs), k :: ks => walkKeys (arrIndex xs k) ks
  | some _, _ :: _ => none

/-- `getNestedValue(obj, path)`: dotted-path lookup into the payload.
An empty path is falsy and yields `undefined` immediately. -/
def getNestedValue (obj : List (String × JValue)) (path : String) : Option JValue :=
  if strEmpty path then none
  else walkKeys (some (JValue.jobj obj)) (splitPath path)

/-- Strip the literal `data.` root marker from the start of a field path,
as `evaluateCondition` does with `DATA_PREFIX`. -/
def stripDataRoot (s : String) : String :=
  if "data.".data.isPrefixOf s.data then ⟨s.data.drop 5⟩ else s

/-- The opening brace character of a `\x7b\x7bpath\x7d\x7d` placeholder. -/
def braceL : Char := Char.ofNat 123

/-- The closing brace character of a `\x7b\x7bpath\x7d\x7d` placeholder. -/
def braceR : Char := Char.ofNat 125

/-- One substitution step of `interpolateVariables`: resolve a
placeholder's trimmed path against the payload; an `undefined` or `null`
value keeps the placeholder verbatim, anything else is `String(value)`. -/
def resolveVar (data : List (String × JValue)) (content : List Char) : List Char :=
  match getNestedValue data (jsTrim ⟨content⟩) with
  | none => braceL :: braceL :: (content ++ [braceR, braceR])
  | some JValue.jnull => braceL :: braceL :: (content ++ [braceR, braceR])
  | some v => (jsToString v).data

/-- Global-replace scan of `VARIABLE_PATTERN` (`\x7b\x7b[^\x7d]+\x7d\x7d`):
at a double opening brace, a non-empty run of non-closing-brace characters
followed by a double closing brace is a placeholder; otherwise the scan
advances one character, as the regex engine does. The fuel is structural
bookkeeping only; `length + 1` always suffices because every step consumes
at least one character. -/
def substVarsAux (data : List (String × JValue)) : Nat → List Char → List Char
  | 0, l => l
  | _ + 1, [] => []
  | fuel + 1, c :: cs =>
    if c = braceL ∧ cs.head? = some braceL then
      let rest := cs.tail
      let content := rest.takeWhile (fun x => x ≠ braceR)
      let after := rest.dropWhile (fun x => x ≠ braceR)
      if content ≠ [] ∧ after.head? = some braceR ∧ after.tail.head? = some braceR then
        resolveVar data content ++ substVarsAux data fuel (after.tail.tail)
      else c :: substVarsAux data fuel cs
    else c :: substVarsAux data fuel cs

/-- `interpolateVariables(template, data)`: substitute every
`\x7b\x7bdotted.path\x7d\x7d` placeholder with its resolved payload value,
leaving unresolved placeholders verbatim. -/
def interpolateVariables (template : String) (data : List (String × JValue)) : String :=
  ⟨substVarsAux data (template.data.length + 1) template.data⟩

mutual
/-- `JSON.stringify` on a `JValue`, as applied to an HTTP action's
configured body before interpolation (string escaping is elided: the
claims never inspect the serialized body). -/
def jsonStringify : JValue → String
  | .jnull => "null"
  | .jbool true => "true"
  | .jbool false => "false"
  | .jnum n => intDecString n
  | .jstr s => "\"" ++ s ++ "\""
  | .jarr xs => "[" ++ joinWith "," (jsonStringifyList xs) ++ "]"
  | .jobj fields => "\x7b" ++ joinWith "," (jsonStringifyFields fields) ++ "\x7d"

/-- Serialize the elements of a JSON array. -/
def jsonStringifyList : List JValue → List String
  | [] => []
  | v :: vs => jsonStringify v :: jsonStringifyList vs

/-- Serialize the fields of a JSON object. -/
def jsonStringifyFields : List (String × JValue) → List String
  | [] => []
  | (k, v) :: rest => ("\"" ++ k ++ "\":" ++ jsonStringify v) :: jsonStringifyFields rest
end

/-- The object spread `\x7b...a, ...b\x7d`: keys of `b` override keys of
`a` in place; keys only in `b` are appended in order. -/
def mergeRecords (a b : List (String × JValue)) : List (String × JValue) :=
  a.map (fun p => (p.1, (recLookup b p.1).getD p.2)) ++
    b.filter (fun p => (recLookup a p.1).isNone)

/-- `subject.includes(expected)` on character lists: `pat` occurs
contiguously somewhere in `l` (the empty pattern always occurs). -/
def infixOfChars (pat : List Char) : List Char → Bool
  | [] => pat.isEmpty
  | c :: rest => pat.isPrefixOf (c :: rest) || infixOfChars pat rest

/-! ## Condition Evaluator (`evaluateCondition`) -/

/-- `evaluateCondition(condition, data)`: resolve the (trimmed,
`data.`-stripped) field path and apply the operator with JavaScript
`String()`/`Number()` casts. A missing/blank field, an unresolved or
`null` value, and an unknown (or missing) operator all evaluate to
`false`; the numeric operators are `false` whenever either side is `NaN`. -/
def evaluateCondition (condition : ConditionNodeData) (data : List (String × JValue)) : Bool :=
  if strFalsy condition.field || strEmpty (jsTrim (condition.field.getD "")) then
    false
  else
    let fieldPath := stripDataRoot (jsTrim (condition.field.getD ""))
    match getNestedValue data fieldPath with
    | none => false
    | some JValue.jnull => false
    | some fieldValue =>
      match condition.operator with
      | some "EQUALS" => jsToString fieldValue == condValueToString condition.value
      | some "NOT_EQUALS" => jsToString fieldValue != condValueToString condition.value
      | some "CONTAINS" =>
        infixOfChars (condValueToString condition.value).data (jsToString fieldValue).data
      | some "GREATER_THAN" =>
        match jsToNumber fieldValue, condValueToNumber condition.value with
        | some a, some b => decide (b < a)
        | _, _ => false
      | some "LESS_THAN" =>
        match jsToNumber fieldValue, condValueToNumber condition.value with
        | some a, some b => decide (a < b)
        | _, _ => false
      | _ => false

/-! ## Error message strings

One definition per template literal of the source, so that theorems can
name the exact recorded message. -/

/-- `callStack.join(' → ')`. -/
def joinStack (stack : List String) : String := joinWith " → " stack

/-- Depth-guard message of `executeFlow`. -/
def depthLimitMsg (stack : List String) : String :=
  "Limite de profundidade de chamadas atingido (" ++ natDecString MAX_FLOW_DEPTH ++
    "). Stack: " ++ joinStack stack

/-- Loop-guard message of `executeFlow`. -/
def loopDetectedMsg (flowId : String) (stack : List String) : String :=
  "Loop detectado: Flow " ++ flowId ++ " já foi chamado nesta cadeia. Stack: " ++
    joinStack stack

/-- Missing-trigger message of `executeFlow`. -/
def noTriggerMsg : String := "Flow deve começar com um nó Trigger"

/-- Trigger-event mismatch message of `executeFlow`; a non-trigger data
payload renders its (undefined) event as JavaScript does. -/
def eventMismatchMsg (expected : Option String) (received : String) : String :=
  "Evento não corresponde: esperado \"" ++ expected.getD "undefined" ++
    "\", recebido \"" ++ received ++ "\""

/-- Top-level catch message of `executeFlow`. -/
def fatalErrorMsg (m : String) : String := "Erro fatal ao executar flow: " ++ m

/-- Empty-graph validation message. -/
def noNodesMsg : String := "Flow não possui nós"

/-- No-trigger validation message. -/
def validateNoTriggerMsg : String := "Flow deve ter pelo menos um nó Trigger"

/-- Multiple-trigger validation message. -/
def validateMultiTriggerMsg : String := "Flow não deve ter mais de um nó Trigger"

/-- Missing-`sourceHandle` validation message for a condition node. -/
def missingHandleMsg (nodeId : String) (count : Nat) : String :=
  "Condition node " ++ nodeId ++ " tem " ++ natDecString count ++
    " edge(s) sem sourceHandle. Todas as edges de condition nodes devem ter sourceHandle \x27yes\x27 ou \x27no\x27"

/-- Unknown-node message of `executeNode`. -/
def nodeNotFoundMsg (nodeId : String) : String :=
  "Nó " ++ nodeId ++ " não encontrado no flow"

/-- Unknown-node-type message of `executeNode`. -/
def unknownNodeTypeMsg (t : String) (nodeId : String) : String :=
  "Tipo de nó desconhecido: " ++ t ++ " no nó " ++ nodeId

/-- Catch message of `executeNode`. -/
def nodeExecErrorMsg (nodeId : String) (m : String) : String :=
  "Erro ao executar nó " ++ nodeId ++ ": " ++ m

/-- Unconfigured-field message of `executeCondition`. -/
def conditionFieldMsg (nodeId : String) : String :=
  "Nó de condição " ++ nodeId ++
    ": Campo do payload não configurado. Configure o campo no editor do nó."

/-- Missing-target message of `executeCondition`'s fan-out. -/
def condTargetMsg (condId : String) (target : String) : String :=
  "Nó de condição " ++ condId ++ ": Nó de destino " ++ target ++ " não encontrado no flow"

/-- Invalid-action-data message of `executeAction`. -/
def actionInvalidMsg (nodeId : String) : String :=
  "Nó de ação " ++ nodeId ++ ": Dados da ação inválidos ou não configurados"

/-- Unknown-action-type message of `executeAction`. -/
def unknownActionMsg (nodeId : String) (t : String) : String :=
  "Nó de ação " ++ nodeId ++ ": Tipo de ação desconhecido: " ++ t

/-- Catch message of `executeAction` (every exception a dispatched action
raises, the `CALL_FLOW` `ValidationError` included, lands here). -/
def actionUnexpectedMsg (nodeId : String) (m : String) : String :=
  "Erro inesperado ao executar ação " ++ nodeId ++ ": " ++ m

/-- Missing-URL message of `executeHttpRequestAction`. -/
def urlMissingMsg (nodeId : String) : String :=
  "Nó de ação " ++ nodeId ++ ": URL não configurada para HTTP_REQUEST"

/-- Non-2xx message of `executeHttpRequestAction`. -/
def httpStatusMsg (status : Nat) (body : String) : String :=
  "HTTP " ++ natDecString status ++ ": " ++ body

/-- Timeout message of `executeHttpRequestAction`. -/
def httpTimeoutMsg : String :=
  "Timeout ao executar HTTP_REQUEST (" ++ natDecString HTTP_TIMEOUT ++ "ms)"

/-- Missing-email message of `executeEmailAction`. -/
def emailMissingMsg (nodeId : String) : String :=
  "Nó de ação " ++ nodeId ++ ": Email não configurado para SEND_EMAIL"

/-- Missing-`flowId` message of `executeCallFlowAction`. -/
def flowIdMissingMsg (nodeId : String) : String :=
  "Nó de ação " ++ nodeId ++ ": FlowId não configurado para CALL_FLOW"

/-- Target-flow-not-found message of `executeCallFlowAction`. -/
def flowNotFoundMsg (nodeId : String) (flowId : String) : String :=
  "Nó de ação " ++ nodeId ++ ": Flow " ++ flowId ++ " não encontrado"

/-! ## Graph Validator and traversal helpers -/

/-- `validateFlow(flow)`: at least one node, exactly one trigger, and no
condition edge with a falsy `sourceHandle`. (The source computes
`hasYesEdge`/`hasNoEdge` but its both-branches check was removed: an
edge set covering only one branch is valid, and a present-but-arbitrary
handle is not checked against `yes`/`no`.)

`validateConditionStep` is the named body of the loop over the condition
nodes. -/
def validateConditionStep (flow : Flow) (acc : List String) (conditionNode : Node) : List String :=
  let conditionEdges := flow.edges.filter (fun e => e.source == conditionNode.id)
  let edgesWithoutHandle := conditionEdges.filter (fun e => strFalsy e.sourceHandle)
  if 0 < edgesWithoutHandle.length then
    acc ++ [missingHandleMsg conditionNode.id edgesWithoutHandle.length]
  else acc

/-- `validateFlow(flow)`: the non-emptiness and single-trigger checks,
then the condition-edge loop. -/
def validateFlow (flow : Flow) : List String :=
  if flow.nodes.isEmpty then [noNodesMsg]
  else
    let triggerNodes := flow.nodes.filter (fun n => n.type == "trigger")
    let triggerErrors :=
      if triggerNodes.length = 0 then [validateNoTriggerMsg]
      else if triggerNodes.length > 1 then [validateMultiTriggerMsg]
      else []
    let conditionNodes := flow.nodes.filter (fun n => n.type == "condition")
    conditionNodes.foldl (validateConditionStep flow) triggerErrors

/-- `getNextNodes(nodeId, flow)`: targets of the node's outgoing edges,
with falsy (empty) targets filtered out. -/
def getNextNodes (nodeId : String) (flow : Flow) : List String :=
  ((flow.edges.filter (fun e => e.source == nodeId)).map (fun e => e.target)).filter
    (fun t => !strEmpty t)

/-- `context.errors.push(msg)`. -/
def pushError (ctx : ExecutionContext) (msg : String) : ExecutionContext :=
  { ctx with errors := ctx.errors ++ [msg] }

/-- `formatResult(context)`: `success` holds exactly when no error was
recorded; `executedNodes` is the visited set in insertion order. -/
def formatResult (context : ExecutionContext) : FlowExecutionResult :=
  { success := context.errors.isEmpty
    executedNodes := context.executedNodes
    errors := context.errors }

/-! ## Action Dispatcher leaves -/

/-- `executeHttpRequestAction`: a falsy URL raises a `ValidationError`;
the method defaults to `POST` on falsiness; the body (if any) is
serialized and interpolated; a non-ok response, the abort timeout and any
other network failure are re-raised as generic errors. The context is
never modified here — failures surface only through the exception
channel. -/
def executeHttpRequestAction (env : Env) (actionData : ActionNodeData) (nodeId : String)
    (ctx : ExecutionContext) : ExecutionContext × Option Thrown :=
  let config := actionData.config
  if strFalsy config.url then
    (ctx, some (Thrown.validation (urlMissingMsg nodeId) "url"))
  else
    let method := if strFalsy config.method then "POST" else config.method.getD ""
    let body := config.body.map
      (fun b => interpolateVariables (jsonStringify b) ctx.webhookData.data)
    match env.fetch (config.url.getD "") method body with
    | .ok _ => (ctx, none)
    | .httpFail status text => (ctx, some (Thrown.err (httpStatusMsg status text)))
    | .abort => (ctx, some (Thrown.err httpTimeoutMsg))
    | .failure m => (ctx, some (Thrown.err m))

/-- `executeEmailAction`: a falsy recipient raises a `ValidationError`;
otherwise the send is a logged stub. -/
def executeEmailAction (actionData : ActionNodeData) (nodeId : String)
    (ctx : ExecutionContext) : ExecutionContext × Option Thrown :=
  if strFalsy actionData.config.email then
    (ctx, some (Thrown.validation (emailMissingMsg nodeId) "email"))
  else (ctx, none)

/-! ## Traversal Engine

The mutual recursion is indexed by fuel consumed on entry to every
function; at fuel zero the context is returned unchanged. All other
behaviour is a direct translation of the source. -/

mutual

/-- `executeFlow(flow, webhookEvent, parentContext?)`: builds the run
context (inheriting call stack and depth from a parent, with a fresh
visited set), applies the depth and loop guards, validates the graph,
checks the trigger's event at depth 0 only, then dispatches the trigger
node inside the top-level catch. Every exit path goes through
`formatResult`, so the function is total and never raises. -/
def executeFlow (env : Env) (fuel : Nat) (flow : Flow) (webhookEvent : WebhookEvent)
    (parentContext : Option ExecutionContext) : FlowExecutionResult :=
  let context : ExecutionContext :=
    match parentContext with
    | some parent =>
      { webhookData := webhookEvent, executedNodes := [], errors := []
        flowCallStack := parent.flowCallStack ++ [flow.id], depth := parent.depth + 1 }
    | none =>
      { webhookData := webhookEvent, executedNodes := [], errors := []
        flowCallStack := [flow.id], depth := 0 }
  match fuel with
  | 0 => formatResult context
  | fuel + 1 =>
    if MAX_FLOW_DEPTH ≤ context.depth then
      formatResult (pushError context (depthLimitMsg context.flowCallStack))
    else if 1 < (context.flowCallStack.filter (fun i => i == flow.id)).length then
      formatResult (pushError context (loopDetectedMsg flow.id context.flowCallStack))
    else
      let validationErrors := validateFlow flow
      if 0 < validationErrors.length then
        formatResult { context with errors := context.errors ++ validationErrors }
      else
        match flow.nodes.find? (fun n => n.type == "trigger") with
        | none => formatResult (pushError context noTriggerMsg)
        | some triggerNode =>
          if context.depth = 0 ∧ triggerNode.data.eventField ≠ some webhookEvent.event then
            formatResult
              (pushError context (eventMismatchMsg triggerNode.data.eventField webhookEvent.event))
          else
            match executeNode env fuel triggerNode.id flow context with
            | (ctx2, none) => formatResult ctx2
            | (ctx2, some t) => formatResult (pushError ctx2 (fatalErrorMsg t.message))

/-- `executeNode(nodeId, flow, context)`: idempotent re-entry guard,
node lookup, mark-visited-before-execute, dispatch by node type, and the
catch that records a node failure — halting the local path for condition
nodes and advancing for node types other than action and condition. -/
def executeNode (env : Env) : Nat → String → Flow → ExecutionContext →
    ExecutionContext × Option Thrown
  | 0, _, _, ctx => (ctx, none)
  | fuel + 1, nodeId, flow, ctx =>
    if ctx.executedNodes.contains nodeId then (ctx, none)
    else
      match flow.nodes.find? (fun n => n.id == nodeId) with
      | none => (pushError ctx (nodeNotFoundMsg nodeId), none)
      | some node =>
        let ctx1 := { ctx with executedNodes := ctx.executedNodes ++ [nodeId] }
        let step :=
          match node.type with
          | "trigger" => executeTrigger env fuel node flow ctx1
          | "condition" => executeCondition env fuel node flow ctx1
          | "action" => executeAction env fuel node flow ctx1
          | "end" => (ctx1, none)
          | other => (pushError ctx1 (unknownNodeTypeMsg other nodeId), none)
        match step with
        | (ctx2, none) => (ctx2, none)
        | (ctx2, some t) =>
          let ctx3 := pushError ctx2 (nodeExecErrorMsg nodeId t.message)
          if node.type == "condition" then (ctx3, none)
          else if node.type != "action" && node.type != "condition" then
            executeNodeSeq env fuel (getNextNodes nodeId flow) flow ctx3
          else (ctx3, none)

/-- Sequential `for … await executeNode(...)` over a list of node ids;
an exception aborts the remainder (in the source it propagates out of
the loop — though `executeNode` in fact never raises). -/
def executeNodeSeq (env : Env) : Nat → List String → Flow → ExecutionContext →
    ExecutionContext × Option Thrown
  | 0, _, _, ctx => (ctx, none)
  | _ + 1, [], _, ctx => (ctx, none)
  | fuel + 1, nodeId :: rest, flow, ctx =>
    match executeNode env fuel nodeId flow ctx with
    | (ctx2, none) => executeNodeSeq env fuel rest flow ctx2
    | (ctx2, some t) => (ctx2, some t)

/-- `executeTrigger`: always fires; advances to all direct successors
sequentially. -/
def executeTrigger (env : Env) : Nat → Node → Flow → ExecutionContext →
    ExecutionContext × Option Thrown
  | 0, _, _, ctx => (ctx, none)
  | fuel + 1, node, flow, ctx =>
    let nextNodes := getNextNodes node.id flow
    if nextNodes.isEmpty then (ctx, none)
    else executeNodeSeq env fuel nextNodes flow ctx

/-- `executeCondition`: a missing/blank field is recorded as an error and
halts the path; otherwise the condition is evaluated and exactly the
outgoing edges whose `sourceHandle` equals the chosen branch handle are
dispatched; zero matching edges terminate the path silently. The source
initiates the matching branches with `Promise.all`; the context joins are
modelled sequentially (branch completion is awaited before dispatch
returns, and `executeNode` never raises). -/
def executeCondition (env : Env) : Nat → Node → Flow → ExecutionContext →
    ExecutionContext × Option Thrown
  | 0, _, _, ctx => (ctx, none)
  | fuel + 1, node, flow, ctx =>
    let conditionData := node.data.asCondition
    if strFalsy conditionData.field || strEmpty (jsTrim (conditionData.field.getD "")) then
      (pushError ctx (conditionFieldMsg node.id), none)
    else
      let conditionMet := evaluateCondition conditionData ctx.webhookData.data
      let edges := flow.edges.filter (fun e => e.source == node.id)
      let expectedHandle := if conditionMet then "yes" else "no"
      let targetEdges := edges.filter (fun e => e.sourceHandle == some expectedHandle)
      if targetEdges.isEmpty then (ctx, none)
      else runCondTargets env fuel node.id targetEdges flow ctx

/-- The per-edge body of `executeCondition`'s fan-out: a resolvable,
typed target node is dispatched; otherwise a missing-target error is
recorded. -/
def runCondTargets (env : Env) : Nat → String → List Edge → Flow → ExecutionContext →
    ExecutionContext × Option Thrown
  | 0, _, _, _, ctx => (ctx, none)
  | _ + 1, _, [], _, ctx => (ctx, none)
  | fuel + 1, condId, edge :: rest, flow, ctx =>
    let step :=
      match flow.nodes.find? (fun n => n.id == edge.target) with
      | some targetNode =>
        if !strEmpty targetNode.type then executeNode env fuel edge.target flow ctx
        else (pushError ctx (condTargetMsg condId edge.target), none)
      | none => (pushError ctx (condTargetMsg condId edge.target), none)
    match step with
    | (ctx2, none) => runCondTargets env fuel condId rest flow ctx2
    | (ctx2, some t) => (ctx2, some t)

/-- `executeAction`: invalid action data is recorded (and traversal still
continues); a recognised action type is dispatched inside the catch that
converts ANY raised exception — the `CALL_FLOW` `ValidationError`
included — into an `Erro inesperado…` entry; traversal then always
advances to the node's successors. -/
def executeAction (env : Env) : Nat → Node → Flow → ExecutionContext →
    ExecutionContext × Option Thrown
  | 0, _, _, ctx => (ctx, none)
  | fuel + 1, node, flow, ctx =>
    let actionData := node.data.asAction
    if strFalsy actionData.type then
      executeNodeSeq env fuel (getNextNodes node.id flow) flow
        (pushError ctx (actionInvalidMsg node.id))
    else
      let step :=
        match actionData.type.getD "" with
        | "LOG" => (ctx, none)
        | "HTTP_REQUEST" => executeHttpRequestAction env actionData node.id ctx
        | "SEND_EMAIL" => executeEmailAction actionData node.id ctx
        | "CALL_FLOW" => executeCallFlowAction env fuel actionData node.id ctx
        | other => (pushError ctx (unknownActionMsg node.id other), none)
      let ctx3 :=
        match step with
        | (ctx2, none) => ctx2
        | (ctx2, some t) => pushError ctx2 (actionUnexpectedMsg node.id t.message)
      executeNodeSeq env fuel (getNextNodes node.id flow) flow ctx3

/-- `executeCallFlowAction`: a falsy `flowId` and an unresolvable target
flow raise `ValidationError`s (re-raised unchanged by the local catch);
an inactive target is a warned no-op; otherwise the target flow runs as a
sub-flow on merged data with the current context as parent. The sub-flow's
result is only logged — the parent context is never modified here, and
execution-log writes have no context effect. -/
def executeCallFlowAction (env : Env) : Nat → ActionNodeData → String → ExecutionContext →
    ExecutionContext × Option Thrown
  | 0, _, _, ctx => (ctx, none)
  | fuel + 1, actionData, nodeId, ctx =>
    if strFalsy actionData.config.flowId then
      (ctx, some (Thrown.validation (flowIdMissingMsg nodeId) "flowId"))
    else
      let fid := actionData.config.flowId.getD ""
      match env.findFlow fid with
      | none => (ctx, some (Thrown.validation (flowNotFoundMsg nodeId fid) "flowId"))
      | some targetFlow =>
        if !targetFlow.active then (ctx, none)
        else
          let mergedData := mergeRecords ctx.webhookData.data (actionData.config.data.getD [])
          let syntheticEvent := { ctx.webhookData with data := mergedData }
          let _ := executeFlow env fuel targetFlow syntheticEvent (some ctx)
          (ctx, none)

end

/-! ## Invariants of the traversal

`ctxStep a b` relates a context to its evolution along any engine step:
run metadata is unchanged, the visited list and the error list only grow
at the end, and freedom from duplicates in the visited list is preserved. -/

/-- Evolution relation on execution contexts along engine steps. -/
def ctxStep (a b : ExecutionContext) : Prop :=
  a.webhookData = b.webhookData ∧ a.flowCallStack = b.flowCallStack ∧ a.depth = b.depth ∧
    a.executedNodes <+: b.executedNodes ∧ a.errors <+: b.errors ∧
    (a.executedNodes.Nodup → b.executedNodes.Nodup)

/-- `ctxStep` is reflexive. -/
theorem ctxStep_refl (a : ExecutionContext) : ctxStep a a :=
  ⟨rfl, rfl, rfl, List.prefix_rfl, List.prefix_rfl, id⟩

/-- `ctxStep` is transitive. -/
theorem ctxStep_trans {a b c : ExecutionContext} (h1 : ctxStep a b) (h2 : ctxStep b c) :
    ctxStep a c := by
  obtain ⟨w1, s1, d1, x1, e1, n1⟩ := h1
  obtain ⟨w2, s2, d2, x2, e2, n2⟩ := h2
  exact ⟨w1.trans w2, s1.trans s2, d1.trans d2, x1.trans x2, e1.trans e2, fun h => n2 (n1 h)⟩

/-- Recording an error is a `ctxStep`. -/
theorem ctxStep_push (a : ExecutionContext) (m : String) : ctxStep a (pushError a m) :=
  ⟨rfl, rfl, rfl, List.prefix_rfl, List.prefix_append _ _, id⟩

/-- Marking an unvisited node is a `ctxStep`. -/
theorem ctxStep_mark (a : ExecutionContext) (n : String) (h : n ∉ a.executedNodes) :
    ctxStep a { a with executedNodes := a.executedNodes ++ [n] } := by
  refine ⟨rfl, rfl, rfl, List.prefix_append _ _, List.prefix_rfl, fun hd => ?_⟩
  simp [List.nodup_append, hd, h]

/-- A successful engine step from `ctx`: the context evolves and no
exception escapes. -/
def EStep (ctx : ExecutionContext) (r : ExecutionContext × Option Thrown) : Prop :=
  ctxStep ctx r.1 ∧ r.2 = none

/-- The identity step. -/
theorem EStep_id (ctx : ExecutionContext) : EStep ctx (ctx, none) :=
  ⟨ctxStep_refl ctx, rfl⟩

/-- Recording an error is a successful step. -/
theorem EStep_push (ctx : ExecutionContext) (m : String) : EStep ctx (pushError ctx m, none) :=
  ⟨ctxStep_push ctx m, rfl⟩

/-- Prepending context evolution to a successful step. -/
theorem EStep_after {a b : ExecutionContext} {r : ExecutionContext × Option Thrown}
    (h1 : ctxStep a b) (h2 : EStep b r) : EStep a r :=
  ⟨ctxStep_trans h1 h2.1, h2.2⟩

/-- The HTTP action never modifies the context (failures surface through
the exception channel only). -/
theorem executeHttpRequestAction_ctx (env : Env) (actionData : ActionNodeData)
    (nodeId : String) (ctx : ExecutionContext) :
    (executeHttpRequestAction env actionData nodeId ctx).1 = ctx := by
  unfold executeHttpRequestAction
  dsimp only
  split
  · rfl
  · split <;> rfl

/-- The email action never modifies the context. -/
theorem executeEmailAction_ctx (actionData : ActionNodeData) (nodeId : String)
    (ctx : ExecutionContext) : (executeEmailAction actionData nodeId ctx).1 = ctx := by
  unfold executeEmailAction
  split <;> rfl

/-- The CALL_FLOW action never modifies the calling context (the sub-flow
runs on its own context; its result is only logged). -/
theorem executeCallFlowAction_ctx (env : Env) (fuel : Nat) (actionData : ActionNodeData)
    (nodeId : String) (ctx : ExecutionContext) :
    (executeCallFlowAction env fuel actionData nodeId ctx).1 = ctx := by
  cases fuel with
  | zero => rfl
  | succ f =>
    unfold executeCallFlowAction
    dsimp only
    split
    · rfl
    · split
      · rfl
      · split <;> rfl

/-- Master invariant of the traversal engine, by induction on fuel: every
engine function is a successful step — the context only evolves (visited
and error lists grow at the end, duplicate-freedom of the visited list is
preserved) and no exception ever escapes any of them (every raise is
caught and normalized on the way out). -/
theorem engineOk : ∀ fuel : Nat,
    (∀ env nodeId flow ctx, EStep ctx (executeNode env fuel nodeId flow ctx)) ∧
    (∀ env ids flow ctx, EStep ctx (executeNodeSeq env fuel ids flow ctx)) ∧
    (∀ env node flow ctx, EStep ctx (executeTrigger env fuel node flow ctx)) ∧
    (∀ env node flow ctx, EStep ctx (executeCondition env fuel node flow ctx)) ∧
    (∀ env condId edges flow ctx, EStep ctx (runCondTargets env fuel condId edges flow ctx)) ∧
    (∀ env node flow ctx, EStep ctx (executeAction env fuel node flow ctx)) := by
  intro fuel
  induction fuel with
  | zero =>
    exact ⟨fun _ _ _ ctx => EStep_id ctx, fun _ _ _ ctx => EStep_id ctx,
      fun _ _ _ ctx => EStep_id ctx, fun _ _ _ ctx => EStep_id ctx,
      fun _ _ _ _ ctx => EStep_id ctx, fun _ _ _ ctx => EStep_id ctx⟩
  | succ f ih =>
    obtain ⟨ihNode, ihSeq, ihTrig, ihCond, ihTargets, ihAct⟩ := ih
    have hSeq : ∀ env ids flow ctx, EStep ctx (executeNodeSeq env (f + 1) ids flow ctx) := by
      intro env ids flow ctx
      match ids with
      | [] => exact EStep_id ctx
      | nodeId :: rest =>
        show EStep ctx (match executeNode env f nodeId flow ctx with
          | (ctx2, none) => executeNodeSeq env f rest flow ctx2
          | (ctx2, some t) => (ctx2, some t))
        obtain ⟨hstep, hnone⟩ := ihNode env nodeId flow ctx
        rcases hEq : executeNode env f nodeId flow ctx with ⟨ctx2, t⟩
        rw [hEq] at hstep hnone
        cases t with
        | none => exact EStep_after hstep (ihSeq env rest flow ctx2)
        | some t => exact absurd hnone (by simp)
    have hNode : ∀ env nodeId flow ctx, EStep ctx (executeNode env (f + 1) nodeId flow ctx) := by
      intro env nodeId flow ctx
      show EStep ctx _
      rw [executeNode]
      split
      · exact EStep_id ctx
      · rename_i hcont
        split
        · exact EStep_push ctx _
        · rename_i node hfind
          dsimp only
          have hmem : nodeId ∉ ctx.executedNodes := by
            intro hmem
            exact hcont (List.elem_iff.mpr hmem)
          set ctx1 : ExecutionContext :=
            { ctx with executedNodes := ctx.executedNodes ++ [nodeId] } with hctx1
          have hmark : ctxStep ctx ctx1 := ctxStep_mark ctx nodeId hmem
          have hstep : EStep ctx1 (match node.type with
              | "trigger" => executeTrigger env f node flow ctx1
              | "condition" => executeCondition env f node flow ctx1
              | "action" => executeAction env f node flow ctx1
              | "end" => (ctx1, none)
              | other => (pushError ctx1 (unknownNodeTypeMsg other nodeId), none)) := by
            split
            · exact ihTrig env node flow ctx1
            · exact ihCond env node flow ctx1
            · exact ihAct env node flow ctx1
            · exact EStep_id ctx1
            · exact EStep_push ctx1 _
          obtain ⟨hevolve, hnone⟩ := hstep
          rcases hEq : (match node.type with
              | "trigger" => executeTrigger env f node flow ctx1
              | "condition" => executeCondition env f node flow ctx1
              | "action" => executeAction env f node flow ctx1
              | "end" => (ctx1, none)
              | other => (pushError ctx1 (unknownNodeTypeMsg other nodeId), none)) with ⟨ctx2, t⟩
          rw [hEq] at hevolve hnone
          simp only [hEq]
          cases t with
          | none => exact ⟨ctxStep_trans hmark hevolve, rfl⟩
          | some t => exact absurd hnone (by simp)
    have hTrig : ∀ env node flow ctx, EStep ctx (executeTrigger env (f + 1) node flow ctx) := by
      intro env node flow ctx
      show EStep ctx (if (getNextNodes node.id flow).isEmpty then (ctx, none)
        else executeNodeSeq env f (getNextNodes node.id flow) flow ctx)
      split
      · exact EStep_id ctx
      · exact ihSeq env _ flow ctx
    have hTargets : ∀ env condId edges flow ctx,
        EStep ctx (runCondTargets env (f + 1) condId edges flow ctx) := by
      intro env condId edges flow ctx
      match edges with
      | [] => exact EStep_id ctx
      | edge :: rest =>
        show EStep ctx (match (match flow.nodes.find? (fun n => n.id == edge.target) with
            | some targetNode =>
              if !strEmpty targetNode.type then executeNode env f edge.target flow ctx
              else (pushError ctx (condTargetMsg condId edge.target), none)
            | none => (pushError ctx (condTargetMsg condId edge.target), none)) with
          | (ctx2, none) => runCondTargets env f condId rest flow ctx2
          | (ctx2, some t) => (ctx2, some t))
        have hstep : EStep ctx (match flow.nodes.find? (fun n => n.id == edge.target) with
            | some targetNode =>
              if !strEmpty targetNode.type then executeNode env f edge.target flow ctx
              else (pushError ctx (condTargetMsg condId edge.target), none)
            | none => (pushError ctx (condTargetMsg condId edge.target), none)) := by
          split
          · split
            · exact ihNode env edge.target flow ctx
            · exact EStep_push ctx _
          · exact EStep_push ctx _
        obtain ⟨hevolve, hnone⟩ := hstep
        rcases hEq : (match flow.nodes.find? (fun n => n.id == edge.target) with
            | some targetNode =>
              if !strEmpty targetNode.type then executeNode env f edge.target flow ctx
              else (pushError ctx (condTargetMsg condId edge.target), none)
            | none => (pushError ctx (condTargetMsg condId edge.target), none)) with ⟨ctx2, t⟩
        rw [hEq] at hevolve hnone
        simp only [hEq]
        cases t with
        | none => exact EStep_after hevolve (ihTargets env condId rest flow ctx2)
        | some t => exact absurd hnone (by simp)
    have hCond : ∀ env node flow ctx, EStep ctx (executeCondition env (f + 1) node flow ctx) := by
      intro env node flow ctx
      rw [executeCondition]
      dsimp only
      split
      · exact EStep_push ctx _
      · split <;> split
        all_goals first
          | exact EStep_id ctx
          | exact ihTargets env node.id _ flow ctx
    have hAct : ∀ env node flow ctx, EStep ctx (executeAction env (f + 1) node flow ctx) := by
      intro env node flow ctx
      rw [executeAction]
      dsimp only
      split
      · exact EStep_after (ctxStep_push ctx _) (ihSeq env _ flow _)
      · have hstep : ctxStep ctx (match (node.data.asAction).type.getD "" with
            | "LOG" => (ctx, none)
            | "HTTP_REQUEST" => executeHttpRequestAction env (node.data.asAction) node.id ctx
            | "SEND_EMAIL" => executeEmailAction (node.data.asAction) node.id ctx
            | "CALL_FLOW" => executeCallFlowAction env f (node.data.asAction) node.id ctx
            | other => (pushError ctx (unknownActionMsg node.id other), none)).1 := by
          split
          · exact ctxStep_refl ctx
          · rw [executeHttpRequestAction_ctx]
            exact ctxStep_refl ctx
          · rw [executeEmailAction_ctx]
            exact ctxStep_refl ctx
          · rw [executeCallFlowAction_ctx]
            exact ctxStep_refl ctx
          · exact ctxStep_push ctx _
        rcases hEq : (match (node.data.asAction).type.getD "" with
            | "LOG" => (ctx, none)
            | "HTTP_REQUEST" => executeHttpRequestAction env (node.data.asAction) node.id ctx
            | "SEND_EMAIL" => executeEmailAction (node.data.asAction) node.id ctx
            | "CALL_FLOW" => executeCallFlowAction env f (node.data.asAction) node.id ctx
            | other => (pushError ctx (unknownActionMsg node.id other), none)) with ⟨ctx2, t⟩
        rw [hEq] at hstep
        simp only [hEq]
        cases t with
        | none => exact EStep_after hstep (ihSeq env _ flow ctx2)
        | some t =>
          exact EStep_after (ctxStep_trans hstep (ctxStep_push ctx2 _)) (ihSeq env _ flow _)
    exact ⟨hNode, hSeq, hTrig, hCond, hTargets, hAct⟩

/-- A string whose trim is non-empty is itself non-empty. -/
theorem strEmpty_of_trim {s : String} (h : strEmpty (jsTrim s) = false) :
    strEmpty s = false := by
  rcases s with ⟨l⟩
  cases l with
  | nil => simp [jsTrim, trimChars, strEmpty] at h
  | cons c cs => simp [strEmpty]

/-- `executeNode` on a resolvable node id leaves that id in the visited
list: it is marked before the node body runs and the visited list only
grows afterwards. -/
theorem executeNode_visits (env : Env) (f : Nat) (nodeId : String) (flow : Flow)
    (ctx : ExecutionContext) (node : Node)
    (hfind : flow.nodes.find? (fun n => n.id == nodeId) = some node) :
    nodeId ∈ (executeNode env (f + 1) nodeId flow ctx).1.executedNodes := by
  rw [executeNode]
  split
  · rename_i hcont
    exact List.elem_iff.mp hcont
  · rw [hfind]
    dsimp only
    set ctx1 : ExecutionContext :=
      { ctx with executedNodes := ctx.executedNodes ++ [nodeId] } with hctx1
    have hmem1 : nodeId ∈ ctx1.executedNodes := by
      rw [hctx1]
      exact List.mem_append_right _ (List.mem_singleton.mpr rfl)
    have hstep : ctxStep ctx1 (match node.type with
        | "trigger" => executeTrigger env f node flow ctx1
        | "condition" => executeCondition env f node flow ctx1
        | "action" => executeAction env f node flow ctx1
        | "end" => (ctx1, none)
        | other => (pushError ctx1 (unknownNodeTypeMsg other nodeId), none)).1 := by
      obtain ⟨hN, hS, hT, hC, hG, hA⟩ := engineOk f
      split
      · exact (hT env node flow ctx1).1
      · exact (hC env node flow ctx1).1
      · exact (hA env node flow ctx1).1
      · exact ctxStep_refl ctx1
      · exact ctxStep_push ctx1 _
    rcases hEq : (match node.type with
        | "trigger" => executeTrigger env f node flow ctx1
        | "condition" => executeCondition env f node flow ctx1
        | "action" => executeAction env f node flow ctx1
        | "end" => (ctx1, none)
        | other => (pushError ctx1 (unknownNodeTypeMsg other nodeId), none)) with ⟨ctx2, t⟩
    rw [hEq] at hstep
    simp only [hEq]
    have hmem2 : nodeId ∈ ctx2.executedNodes := hstep.2.2.2.1.subset hmem1
    cases t with
    | none => exact hmem2
    | some t =>
      dsimp only
      split
      · exact hmem2
      · split
        · obtain ⟨_, hS, _, _, _, _⟩ := engineOk f
          exact (hS env _ flow _).1.2.2.2.1.subset hmem2
        · exact hmem2

/-- Every edge of a condition fan-out whose target resolves to a typed
node gets its target into the visited list, provided the fuel covers the
edge list. -/
theorem runCondTargets_visits (env : Env) (condId : String) (flow : Flow) (edge : Edge)
    (tn : Node) (hfind : flow.nodes.find? (fun n => n.id == edge.target) = some tn)
    (hty : strEmpty tn.type = false) :
    ∀ (edges : List Edge) (fuel : Nat) (ctx : ExecutionContext), edge ∈ edges →
      edges.length < fuel →
      edge.target ∈ (runCondTargets env fuel condId edges flow ctx).1.executedNodes := by
  intro edges
  induction edges with
  | nil => intro fuel ctx h; cases h
  | cons e rest ih =>
    intro fuel ctx hmem hlen
    match fuel, hlen with
    | f + 1, hlen =>
    have hf : 0 < f := by
      simp only [List.length_cons] at hlen
      omega
    rw [runCondTargets]
    try dsimp only
    cases hmem with
    | head =>
      rw [hfind]
      try dsimp only
      rw [if_pos (by simp [hty])]
      match f, hf with
      | g + 1, _ =>
      have hvisit := executeNode_visits env g edge.target flow ctx tn hfind
      rcases hEq : executeNode env (g + 1) edge.target flow ctx with ⟨ctx2, t⟩
      rw [hEq] at hvisit
      try simp only [hEq]
      cases t with
      | none =>
        obtain ⟨_, _, _, _, hG, _⟩ := engineOk (g + 1)
        exact (hG env condId rest flow ctx2).1.2.2.2.1.subset hvisit
      | some t => exact hvisit
    | tail _ hmem' =>
      have hstep : EStep ctx (match flow.nodes.find? (fun n => n.id == e.target) with
          | some targetNode =>
            if !strEmpty targetNode.type then executeNode env f e.target flow ctx
            else (pushError ctx (condTargetMsg condId e.target), none)
          | none => (pushError ctx (condTargetMsg condId e.target), none)) := by
        obtain ⟨hN, _, _, _, _, _⟩ := engineOk f
        split
        · split
          · exact hN env e.target flow ctx
          · exact EStep_push ctx _
        · exact EStep_push ctx _
      obtain ⟨hevolve, hnone⟩ := hstep
      rcases hEq : (match flow.nodes.find? (fun n => n.id == e.target) with
          | some targetNode =>
            if !strEmpty targetNode.type then executeNode env f e.target flow ctx
            else (pushError ctx (condTargetMsg condId e.target), none)
          | none => (pushError ctx (condTargetMsg condId e.target), none)) with ⟨ctx2, t⟩
      rw [hEq] at hnone
      simp only [hEq]
      cases t with
      | none =>
        exact ih f ctx2 hmem' (by simp only [List.length_cons] at hlen; omega)
      | some t => exact absurd hnone (by simp)

/-- The condition-edge validation loop only ever appends messages. -/
theorem foldl_validate_mono (flow : Flow) :
    ∀ (l : List Node) (acc : List String) (m : String), m ∈ acc →
      m ∈ l.foldl (validateConditionStep flow) acc := by
  intro l
  induction l with
  | nil => intro acc m h; exact h
  | cons c rest ih =>
    intro acc m h
    simp only [List.foldl_cons]
    apply ih
    unfold validateConditionStep
    dsimp only
    split
    · exact List.mem_append_left _ h
    · exact h

/-- A condition node with at least one falsy-handle outgoing edge
contributes its message to the validation loop's result. -/
theorem foldl_validate_mem (flow : Flow) :
    ∀ (l : List Node) (acc : List String) (c : Node), c ∈ l →
      0 < ((flow.edges.filter (fun e => e.source == c.id)).filter
          (fun e => strFalsy e.sourceHandle)).length →
      missingHandleMsg c.id ((flow.edges.filter (fun e => e.source == c.id)).filter
          (fun e => strFalsy e.sourceHandle)).length ∈
        l.foldl (validateConditionStep flow) acc := by
  intro l
  induction l with
  | nil => intro acc c h; cases h
  | cons d rest ih =>
    intro acc c hmem hbad
    simp only [List.foldl_cons]
    cases hmem with
    | head =>
      apply foldl_validate_mono
      unfold validateConditionStep
      dsimp only
      rw [if_pos hbad]
      exact List.mem_append_right _ (List.mem_singleton.mpr rfl)
    | tail _ h => exact ih _ c h hbad

/-- If no processed condition node has a falsy-handle outgoing edge, the
validation loop leaves the accumulator unchanged. -/
theorem foldl_validate_nil (flow : Flow) :
    ∀ (l : List Node),
      (∀ c ∈ l, ((flow.edges.filter (fun e => e.source == c.id)).filter
          (fun e => strFalsy e.sourceHandle)) = []) →
      l.foldl (validateConditionStep flow) [] = [] := by
  intro l
  induction l with
  | nil => intro _; rfl
  | cons c rest ih =>
    intro h
    simp only [List.foldl_cons]
    have hc := h c (List.mem_cons_self c rest)
    unfold validateConditionStep
    dsimp only
    rw [hc]
    rw [if_neg (by simp)]
    exact ih (fun d hd => h d (List.mem_cons_of_mem c hd))

/-- The visited list of any `executeFlow` result is duplicate-free: it
starts empty and `executeNode` preserves duplicate-freedom. -/
theorem executeFlow_nodup (env : Env) (fuel : Nat) (flow : Flow) (ev : WebhookEvent)
    (parent : Option ExecutionContext) :
    ((executeFlow env fuel flow ev parent).executedNodes).Nodup := by
  rcases fuel with _ | f
  · rw [executeFlow.eq_def]
    rcases parent with _ | p <;> simp [formatResult]
  · rw [executeFlow.eq_def]
    obtain ⟨hN, _, _, _, _, _⟩ := engineOk f
    rcases parent with _ | p
    · dsimp only
      split
      · simp [formatResult, pushError]
      · split
        · simp [formatResult, pushError]
        · split
          · simp [formatResult]
          · split
            · simp [formatResult, pushError]
            · rename_i triggerNode hfindTrig
              split
              · simp [formatResult, pushError]
              · have hstep := (hN env triggerNode.id flow
                  { webhookData := ev, executedNodes := [], errors := []
                    flowCallStack := [flow.id], depth := 0 }).1
                rcases hEq : executeNode env f triggerNode.id flow
                    { webhookData := ev, executedNodes := [], errors := []
                      flowCallStack := [flow.id], depth := 0 } with ⟨ctx2, t⟩
                rw [hEq] at hstep
                have hnodup : ctx2.executedNodes.Nodup :=
                  hstep.2.2.2.2.2 (by simp)
                try simp only [hEq]
                cases t <;> simp [formatResult, pushError, hnodup]
    · dsimp only
      split
      · simp [formatResult, pushError]
      · split
        · simp [formatResult, pushError]
        · split
          · simp [formatResult]
          · split
            · simp [formatResult, pushError]
            · rename_i triggerNode hfindTrig
              split
              · simp [formatResult, pushError]
              · have hstep := (hN env triggerNode.id flow
                  { webhookData := ev, executedNodes := [], errors := []
                    flowCallStack := p.flowCallStack ++ [flow.id], depth := p.depth + 1 }).1
                rcases hEq : executeNode env f triggerNode.id flow
                    { webhookData := ev, executedNodes := [], errors := []
                      flowCallStack := p.flowCallStack ++ [flow.id], depth := p.depth + 1 } with ⟨ctx2, t⟩
                rw [hEq] at hstep
                have hnodup : ctx2.executedNodes.Nodup :=
                  hstep.2.2.2.2.2 (by simp)
                try simp only [hEq]
                cases t <;> simp [formatResult, pushError, hnodup]

/-! ## Concrete fixtures used by witnesses and counterexamples -/

/-- An environment with no flows and an always-2xx network. -/
def envNop : Env := { findFlow := fun _ => none, fetch := fun _ _ _ => HttpOutcome.ok 200 }

/-- The trigger node of the example scenario. -/
def trigNode : Node := { id := "t1", type := "trigger", data := .trigger ⟨"lead.converted"⟩ }

/-- The condition node of the example scenario. -/
def condNode : Node :=
  { id := "c1", type := "condition"
    data := .condition ⟨some "data.lead.source", some "EQUALS", some (.str "whatsapp")⟩ }

/-- The action node of the example scenario. -/
def actNode : Node := { id := "a1", type := "action", data := .action ⟨some "LOG", {}⟩ }

/-- The end node of the example scenario. -/
def endNode : Node := { id := "e1", type := "end", data := .empty }

/-- The example flow: trigger → condition → (yes) action → end. -/
def flowHappy : Flow :=
  { id := "f1", name := "happy", active := true
    nodes := [trigNode, condNode, actNode, endNode]
    edges :=
      [ ⟨"ed1", "t1", "c1", none⟩
      , ⟨"ed2", "c1", "a1", some "yes"⟩
      , ⟨"ed3", "a1", "e1", none⟩ ] }

/-- An inbound event matching the example trigger, with a WhatsApp lead. -/
def evWhatsapp : WebhookEvent :=
  { id := "w1", event := "lead.converted"
    data := [("lead", .jobj [("source", .jstr "whatsapp")])] }

/-- An inbound event with an unrelated event name. -/
def evOther : WebhookEvent := { id := "w2", event := "other", data := [] }

/-- A fresh execution context at depth 0. -/
def ctxFresh : ExecutionContext :=
  { webhookData := evWhatsapp, executedNodes := [], errors := []
    flowCallStack := ["f1"], depth := 0 }

/-- A parent context already at depth 4 (one short of the limit). -/
def ctxDepth4 : ExecutionContext :=
  { webhookData := evOther, executedNodes := [], errors := []
    flowCallStack := ["a", "b", "c", "d", "e"], depth := 4 }

/-- A parent context whose call stack already contains `flowHappy`. -/
def ctxLoop : ExecutionContext :=
  { webhookData := evWhatsapp, executedNodes := [], errors := []
    flowCallStack := ["f1"], depth := 1 }

/-- A parent context at small depth whose call stack avoids `flowHappy`. -/
def ctxParentZ : ExecutionContext :=
  { webhookData := evWhatsapp, executedNodes := [], errors := []
    flowCallStack := ["z"], depth := 0 }

/-! ## The claims -/

/-- **C1**: for every flow and webhook event, with or without a parent
context, `executeFlow` never raises across its public boundary — in the
embedding it is a total function into `FlowExecutionResult` (every raise
of the traversal is consumed by the top-level catch) — and in the returned
result `success` is `true` exactly when the `errors` list is empty. -/
theorem executeFlow_success_iff_errors_empty (env : Env) (fuel : Nat) (flow : Flow)
    (ev : WebhookEvent) (parent : Option ExecutionContext) :
    (executeFlow env fuel flow ev parent).success = true ↔
      (executeFlow env fuel flow ev parent).errors = [] := by
  have h : ∀ c : ExecutionContext,
      (formatResult c).success = true ↔ (formatResult c).errors = [] := by
    intro c
    simp [formatResult, List.isEmpty_iff]
  rcases fuel with _ | f
  · rw [executeFlow.eq_def]
    dsimp only
    exact h _
  · rw [executeFlow.eq_def]
    dsimp only
    split
    · exact h _
    · split
      · exact h _
      · split
        · exact h _
        · split
          · exact h _
          · split
            · exact h _
            · split <;> exact h _

/-- **C2**: entering `executeFlow` with a call chain whose depth reaches
`MAX_FLOW_DEPTH` (= 5) records the depth-limit error naming the call
stack and returns immediately: no node is executed and the error list is
exactly the depth-limit message. -/
theorem executeFlow_depth_guard (env : Env) (fuel : Nat) (flow : Flow) (ev : WebhookEvent)
    (p : ExecutionContext) (hd : MAX_FLOW_DEPTH ≤ p.depth + 1) (hf : 0 < fuel) :
    executeFlow env fuel flow ev (some p) =
      { success := false, executedNodes := []
        errors := [depthLimitMsg (p.flowCallStack ++ [flow.id])] } := by
  match fuel, hf with
  | f + 1, _ =>
  rw [executeFlow.eq_def]
  dsimp only
  rw [if_pos hd]
  rfl

/-- Witness for `executeFlow_depth_guard` at a depth-4 parent. -/
theorem executeFlow_depth_guard_witness :
    executeFlow envNop 3 flowHappy evWhatsapp (some ctxDepth4) =
      { success := false, executedNodes := []
        errors := [depthLimitMsg (ctxDepth4.flowCallStack ++ [flowHappy.id])] } :=
  executeFlow_depth_guard envNop 3 flowHappy evWhatsapp ctxDepth4 (by decide) (by decide)

/-- **C3**: a call chain in which the flow's id already appears (a
CALL_FLOW cycle), with depth still under the limit, makes `executeFlow`
record the loop-detected error and return immediately: no node is
executed and the error list is exactly the loop message. -/
theorem executeFlow_loop_guard (env : Env) (fuel : Nat) (flow : Flow) (ev : WebhookEvent)
    (p : ExecutionContext) (hd : p.depth + 1 < MAX_FLOW_DEPTH)
    (hmem : flow.id ∈ p.flowCallStack) (hf : 0 < fuel) :
    executeFlow env fuel flow ev (some p) =
      { success := false, executedNodes := []
        errors := [loopDetectedMsg flow.id (p.flowCallStack ++ [flow.id])] } := by
  match fuel, hf with
  | f + 1, _ =>
  rw [executeFlow.eq_def]
  dsimp only
  rw [if_neg (Nat.not_le.mpr hd)]
  rw [if_pos ?hloop]
  case hloop =>
    rw [List.filter_append, List.length_append]
    have h1 : 0 < (p.flowCallStack.filter (fun i => i == flow.id)).length :=
      List.length_pos_of_mem (List.mem_filter.mpr ⟨hmem, beq_self_eq_true flow.id⟩)
    have h2 : (([flow.id] : List String).filter (fun i => i == flow.id)).length = 1 := by
      simp
    omega
  rfl

/-- Witness for `executeFlow_loop_guard` on a repeated flow id. -/
theorem executeFlow_loop_guard_witness :
    executeFlow envNop 3 flowHappy evWhatsapp (some ctxLoop) =
      { success := false, executedNodes := []
        errors := [loopDetectedMsg flowHappy.id (ctxLoop.flowCallStack ++ [flowHappy.id])] } :=
  executeFlow_loop_guard envNop 3 flowHappy evWhatsapp ctxLoop (by decide) (by decide) (by decide)

/-- **C4**: within one execution context every node is executed at most
once — the returned `executedNodes` list is duplicate-free, node dispatch
returns immediately (context unchanged, nothing raised) for an
already-visited id, and for a resolvable id the node is in the visited
list when dispatch returns (it is marked before its body runs). -/
theorem executeFlow_visit_once (env : Env) (fuel : Nat) (flow : Flow) (ev : WebhookEvent)
    (parent : Option ExecutionContext) (nodeId : String) (ctx : ExecutionContext) (node : Node) :
    ((executeFlow env fuel flow ev parent).executedNodes).Nodup ∧
      (nodeId ∈ ctx.executedNodes → executeNode env fuel nodeId flow ctx = (ctx, none)) ∧
      (0 < fuel → flow.nodes.find? (fun n => n.id == nodeId) = some node →
        nodeId ∈ (executeNode env fuel nodeId flow ctx).1.executedNodes) := by
  refine ⟨executeFlow_nodup env fuel flow ev parent, ?_, ?_⟩
  · intro hmem
    rcases fuel with _ | f
    · rfl
    · rw [executeNode]
      rw [if_pos (List.elem_iff.mpr hmem)]
  · intro hf hfind
    match fuel, hf with
    | f + 1, _ => exact executeNode_visits env f nodeId flow ctx node hfind

/-- A context that has already visited the trigger node. -/
def ctxVisited : ExecutionContext := { ctxFresh with executedNodes := ["t1"] }

/-- Witness for `executeFlow_visit_once` on the example flow. -/
theorem executeFlow_visit_once_witness :
    ((executeFlow envNop 20 flowHappy evWhatsapp none).executedNodes).Nodup ∧
      executeNode envNop 5 "t1" flowHappy ctxVisited = (ctxVisited, none) ∧
      "t1" ∈ (executeNode envNop 5 "t1" flowHappy ctxFresh).1.executedNodes := by
  obtain ⟨h1, _, _⟩ :=
    executeFlow_visit_once envNop 20 flowHappy evWhatsapp none "t1" ctxVisited trigNode
  obtain ⟨_, h2, _⟩ :=
    executeFlow_visit_once envNop 5 flowHappy evWhatsapp none "t1" ctxVisited trigNode
  obtain ⟨_, _, h3⟩ :=
    executeFlow_visit_once envNop 5 flowHappy evWhatsapp none "t1" ctxFresh trigNode
  exact ⟨h1, h2 (by decide), h3 (by decide) rfl⟩

/-- **C5**: once a Condition node's field is configured, exactly the
outgoing edges carrying the chosen branch handle (`"yes"` on a true
evaluation, `"no"` on false) are dispatched: with zero matching edges the
dispatch returns with the context unchanged (no error — silent
termination), and every matching edge whose target resolves to a typed
node gets that target visited. -/
theorem executeCondition_branch_dispatch (env : Env) (fuel : Nat) (node : Node) (flow : Flow)
    (ctx : ExecutionContext) (s : String) (edge : Edge) (tn : Node)
    (hfield : (node.data.asCondition).field = some s)
    (hblank : strEmpty (jsTrim s) = false) :
    (((flow.edges.filter (fun e => e.source == node.id)).filter (fun e =>
        e.sourceHandle == some (if evaluateCondition (node.data.asCondition) ctx.webhookData.data
          then "yes" else "no"))) = [] →
      executeCondition env fuel node flow ctx = (ctx, none)) ∧
    (edge ∈ ((flow.edges.filter (fun e => e.source == node.id)).filter (fun e =>
        e.sourceHandle == some (if evaluateCondition (node.data.asCondition) ctx.webhookData.data
          then "yes" else "no"))) →
      ((flow.edges.filter (fun e => e.source == node.id)).filter (fun e =>
        e.sourceHandle == some (if evaluateCondition (node.data.asCondition) ctx.webhookData.data
          then "yes" else "no"))).length + 1 < fuel →
      flow.nodes.find? (fun n => n.id == edge.target) = some tn →
      strEmpty tn.type = false →
      edge.target ∈ (executeCondition env fuel node flow ctx).1.executedNodes) := by
  have hcond : (strFalsy (node.data.asCondition).field ||
      strEmpty (jsTrim ((node.data.asCondition).field.getD ""))) = false := by
    rw [hfield]
    simp [strFalsy, Option.getD, strEmpty_of_trim hblank, hblank]
  constructor
  · intro hempty
    rcases fuel with _ | f
    · rfl
    · rw [executeCondition]
      dsimp only
      rw [if_neg (by rw [hcond]; simp)]
      rw [if_pos (List.isEmpty_iff.mpr hempty)]
  · intro hmem hlen hfind hty
    match fuel, hlen with
    | f + 1, hlen =>
    rw [executeCondition]
    dsimp only
    rw [if_neg (by rw [hcond]; simp)]
    rw [if_neg ?hne]
    case hne =>
      intro hempty
      rw [List.isEmpty_iff] at hempty
      rw [hempty] at hmem
      cases hmem
    exact runCondTargets_visits env node.id flow edge tn hfind hty _ f ctx hmem (by omega)

/-- An inbound event whose lead source does not match the condition. -/
def evWebsite : WebhookEvent :=
  { id := "w3", event := "lead.converted"
    data := [("lead", .jobj [("source", .jstr "website")])] }

/-- A fresh context carrying the website-lead payload. -/
def ctxWebsite : ExecutionContext :=
  { webhookData := evWebsite, executedNodes := [], errors := []
    flowCallStack := ["f1"], depth := 0 }

/-- Witness for `executeCondition_branch_dispatch`: a false evaluation
with yes-only edges terminates silently; a true evaluation visits the
yes-edge target. -/
theorem executeCondition_branch_dispatch_witness :
    executeCondition envNop 7 condNode flowHappy ctxWebsite = (ctxWebsite, none) ∧
      "a1" ∈ (executeCondition envNop 7 condNode flowHappy ctxFresh).1.executedNodes := by
  obtain ⟨hA, _⟩ := executeCondition_branch_dispatch envNop 7 condNode flowHappy ctxWebsite
    "data.lead.source" ⟨"ed2", "c1", "a1", some "yes"⟩ actNode rfl rfl
  obtain ⟨_, hB⟩ := executeCondition_branch_dispatch envNop 7 condNode flowHappy ctxFresh
    "data.lead.source" ⟨"ed2", "c1", "a1", some "yes"⟩ actNode rfl rfl
  exact ⟨hA (by decide), hB (by decide) (by decide) rfl rfl⟩

/-- **C6**: at depth 0 a trigger-event mismatch is recorded as an error
string and the flow returns with no node executed; at depth > 0 (sub-flow
invocation) the event check is skipped entirely and the flow executes
regardless — its trigger node is dispatched and lands in
`executedNodes`. -/
theorem executeFlow_trigger_event_check (env : Env) (fuel : Nat) (flow : Flow)
    (ev : WebhookEvent) (p : ExecutionContext) (tn : Node)
    (hval : validateFlow flow = [])
    (hfind : flow.nodes.find? (fun n => n.type == "trigger") = some tn)
    (hne : tn.data.eventField ≠ some ev.event) :
    (0 < fuel →
      executeFlow env fuel flow ev none =
        { success := false, executedNodes := []
          errors := [eventMismatchMsg tn.data.eventField ev.event] }) ∧
    (1 < fuel → p.depth + 1 < MAX_FLOW_DEPTH → flow.id ∉ p.flowCallStack →
      tn.id ∈ (executeFlow env fuel flow ev (some p)).executedNodes) := by
  constructor
  · intro hf
    match fuel, hf with
    | f + 1, _ =>
    rw [executeFlow.eq_def]
    dsimp only
    rw [if_neg (by decide)]
    rw [if_neg (by simp)]
    rw [hval]
    rw [if_neg (by simp)]
    rw [hfind]
    dsimp only
    rw [if_pos ⟨rfl, hne⟩]
    rfl
  · intro hf hd hnot
    match fuel, hf with
    | f + 1, hf =>
    have hf1 : 0 < f := by omega
    rw [executeFlow.eq_def]
    dsimp only
    rw [if_neg (Nat.not_le.mpr hd)]
    rw [if_neg ?hnl]
    case hnl =>
      have hfil : p.flowCallStack.filter (fun i => i == flow.id) = [] :=
        List.filter_eq_nil_iff.mpr (fun a ha hp => hnot (beq_iff_eq.mp hp ▸ ha))
      rw [List.filter_append, hfil]
      simp
    rw [hval]
    rw [if_neg (by simp)]
    rw [hfind]
    dsimp only
    rw [if_neg (by simp)]
    have htn : tn ∈ flow.nodes := List.mem_of_find?_eq_some hfind
    have hsome : (flow.nodes.find? (fun n => n.id == tn.id)).isSome := by
      rw [List.find?_isSome]
      exact ⟨tn, htn, beq_self_eq_true tn.id⟩
    obtain ⟨node', hfind'⟩ := Option.isSome_iff_exists.mp hsome
    match f, hf1 with
    | g + 1, _ =>
    have hvisit := executeNode_visits env g tn.id flow
      { webhookData := ev, executedNodes := [], errors := []
        flowCallStack := p.flowCallStack ++ [flow.id], depth := p.depth + 1 } node' hfind'
    rcases hEq : executeNode env (g + 1) tn.id flow
        { webhookData := ev, executedNodes := [], errors := []
          flowCallStack := p.flowCallStack ++ [flow.id], depth := p.depth + 1 } with ⟨ctx2, t⟩
    rw [hEq] at hvisit
    try simp only [hEq]
    cases t with
    | none => simpa [formatResult] using hvisit
    | some t => simpa [formatResult, pushError] using hvisit

/-- Witness for `executeFlow_trigger_event_check`: the example flow on a
non-matching event, at depth 0 and as a sub-flow. -/
theorem executeFlow_trigger_event_check_witness :
    executeFlow envNop 5 flowHappy evOther none =
      { success := false, executedNodes := []
        errors := [eventMismatchMsg trigNode.data.eventField evOther.event] } ∧
      trigNode.id ∈ (executeFlow envNop 7 flowHappy evOther (some ctxParentZ)).executedNodes := by
  obtain ⟨hA, _⟩ :=
    executeFlow_trigger_event_check envNop 5 flowHappy evOther ctxParentZ trigNode rfl rfl
      (by decide)
  obtain ⟨_, hB⟩ :=
    executeFlow_trigger_event_check envNop 7 flowHappy evOther ctxParentZ trigNode rfl rfl
      (by decide)
  exact ⟨hA (by decide), hB (by decide) (by decide) (by decide)⟩

/-- A CALL_FLOW action node with no `flowId` configured. -/
def callFlowNode : Node :=
  { id := "a2", type := "action", data := .action ⟨some "CALL_FLOW", {}⟩ }

/-- A flow containing the misconfigured CALL_FLOW action. -/
def flowCallBad : Flow :=
  { id := "f7", name := "callbad", active := true
    nodes := [trigNode, callFlowNode, endNode]
    edges := [⟨"ed1", "t1", "a2", none⟩, ⟨"ed2", "a2", "e1", none⟩] }

/-- **C7** (counterexample): the `ValidationError` raised for a missing
CALL_FLOW `flowId` does exit `executeCallFlowAction`, but it does NOT
propagate out of the Action Dispatcher as the claim states: `executeAction`
returns with no exception, having converted it into the local
`Erro inesperado…` result error. -/
theorem callFlow_validation_swallowed_cex :
    (executeCallFlowAction envNop 3 (callFlowNode.data.asAction) "a2" ctxFresh).2 =
        some (Thrown.validation (flowIdMissingMsg "a2") "flowId") ∧
      (executeAction envNop 4 callFlowNode flowCallBad ctxFresh).2 = none ∧
      actionUnexpectedMsg "a2" (flowIdMissingMsg "a2") ∈
        (executeAction envNop 4 callFlowNode flowCallBad ctxFresh).1.errors := by
  refine ⟨rfl, rfl, ?_⟩
  decide

/-- **C7** (amended): a CALL_FLOW action with a falsy `flowId` raises a
`ValidationError` out of `executeCallFlowAction`, but it is caught by
`executeAction`'s own catch like every other action failure: it is
recorded as an `Erro inesperado…` result error and traversal continues
to the action's successors; it never reaches the Traversal Engine's
catch. -/
theorem callFlow_validation_caught_locally (env : Env) (fuel g : Nat) (node : Node)
    (flow : Flow) (ctx : ExecutionContext)
    (hty : (node.data.asAction).type = some "CALL_FLOW")
    (hfid : strFalsy (node.data.asAction).config.flowId = true) :
    executeCallFlowAction env (g + 1) (node.data.asAction) node.id ctx =
        (ctx, some (Thrown.validation (flowIdMissingMsg node.id) "flowId")) ∧
      executeAction env (fuel + 2) node flow ctx =
        executeNodeSeq env (fuel + 1) (getNextNodes node.id flow) flow
          (pushError ctx (actionUnexpectedMsg node.id (flowIdMissingMsg node.id))) := by
  have hcall : ∀ g' : Nat,
      executeCallFlowAction env (g' + 1) (node.data.asAction) node.id ctx =
        (ctx, some (Thrown.validation (flowIdMissingMsg node.id) "flowId")) := by
    intro g'
    rw [executeCallFlowAction]
    rw [if_pos hfid]
  refine ⟨hcall g, ?_⟩
  rw [executeAction]
  dsimp only
  rw [if_neg (by rw [hty]; decide)]
  rw [hty]
  show executeNodeSeq env (fuel + 1) (getNextNodes node.id flow) flow
      (match executeCallFlowAction env (fuel + 1) node.data.asAction node.id ctx with
        | (ctx2, none) => ctx2
        | (ctx2, some t) => pushError ctx2 (actionUnexpectedMsg node.id t.message)) =
    executeNodeSeq env (fuel + 1) (getNextNodes node.id flow) flow
      (pushError ctx (actionUnexpectedMsg node.id (flowIdMissingMsg node.id)))
  rw [hcall fuel]
  rfl

/-- Witness for `callFlow_validation_caught_locally` on the concrete
misconfigured CALL_FLOW node. -/
theorem callFlow_validation_caught_locally_witness :
    executeCallFlowAction envNop 3 (callFlowNode.data.asAction) "a2" ctxFresh =
        (ctxFresh, some (Thrown.validation (flowIdMissingMsg "a2") "flowId")) ∧
      executeAction envNop 5 callFlowNode flowCallBad ctxFresh =
        executeNodeSeq envNop 4 (getNextNodes "a2" flowCallBad) flowCallBad
          (pushError ctxFresh (actionUnexpectedMsg "a2" (flowIdMissingMsg "a2"))) :=
  callFlow_validation_caught_locally envNop 3 2 callFlowNode flowCallBad ctxFresh rfl rfl

/-- The example flow with a present-but-invalid condition edge handle. -/
def flowMaybe : Flow :=
  { id := "f8", name := "maybe", active := true
    nodes := [trigNode, condNode, actNode, endNode]
    edges :=
      [ ⟨"ed1", "t1", "c1", none⟩
      , ⟨"ed2", "c1", "a1", some "maybe"⟩
      , ⟨"ed3", "a1", "e1", none⟩ ] }

/-- **C8** (counterexample): a condition edge whose `sourceHandle` is
present but not `"yes"`/`"no"` (here `"maybe"`) is NOT reported by
validation, and the run is not aborted: nodes execute and the result is
successful. -/
theorem validateFlow_invalid_handle_cex :
    validateFlow flowMaybe = [] ∧
      (executeFlow envNop 20 flowMaybe evWhatsapp none).executedNodes = ["t1", "c1"] ∧
      (executeFlow envNop 20 flowMaybe evWhatsapp none).success = true := by
  exact ⟨rfl, by decide, by decide⟩

/-- **C8** (amended): validation reports, for every Condition node, its
outgoing edges with a missing (falsy) `sourceHandle` — present handles
are not checked against `"yes"`/`"no"` — any validation issue aborts the
run before any node executes with the issues as result errors, and a
condition whose present handles cover only one branch is not a
validation error. -/
theorem validateFlow_handle_rules (flow : Flow) (c : Node) (env : Env) (fuel : Nat)
    (ev : WebhookEvent) :
    (flow.nodes ≠ [] → c ∈ flow.nodes → c.type = "condition" →
      0 < ((flow.edges.filter (fun e => e.source == c.id)).filter
          (fun e => strFalsy e.sourceHandle)).length →
      missingHandleMsg c.id ((flow.edges.filter (fun e => e.source == c.id)).filter
          (fun e => strFalsy e.sourceHandle)).length ∈ validateFlow flow) ∧
    (validateFlow flow ≠ [] → 0 < fuel →
      executeFlow env fuel flow ev none =
        { success := false, executedNodes := [], errors := validateFlow flow }) ∧
    (flow.nodes ≠ [] → (flow.nodes.filter (fun n => n.type == "trigger")).length = 1 →
      (∀ c' ∈ flow.nodes, c'.type = "condition" →
        ∀ e ∈ flow.edges, e.source = c'.id → strFalsy e.sourceHandle = false) →
      validateFlow flow = []) := by
  refine ⟨?_, ?_, ?_⟩
  · intro hne hcmem hctype hbad
    unfold validateFlow
    rw [if_neg (by simp [List.isEmpty_iff]; exact hne)]
    dsimp only
    exact foldl_validate_mem flow _ _ c
      (List.mem_filter.mpr ⟨hcmem, by rw [hctype]; exact beq_self_eq_true _⟩) hbad
  · intro hval hf
    match fuel, hf with
    | f + 1, _ =>
    rw [executeFlow.eq_def]
    dsimp only
    rw [if_neg (by decide)]
    rw [if_neg (by simp)]
    rw [if_pos (List.length_pos.mpr hval)]
    simp [formatResult, List.isEmpty_eq_false.mpr hval]
  · intro hne htrig hhandles
    unfold validateFlow
    rw [if_neg (by simp [List.isEmpty_iff]; exact hne)]
    dsimp only
    rw [htrig]
    rw [if_neg (by decide), if_neg (by decide)]
    apply foldl_validate_nil
    intro c' hc'
    obtain ⟨hcm, hcty⟩ := List.mem_filter.mp hc'
    apply List.filter_eq_nil_iff.mpr
    intro e he hp
    obtain ⟨hem, hesrc⟩ := List.mem_filter.mp he
    have hok := hhandles c' hcm (beq_iff_eq.mp hcty) e hem (beq_iff_eq.mp hesrc)
    simp [hok] at hp

/-- The example flow with a missing condition edge handle. -/
def flowMissing : Flow :=
  { id := "f8m", name := "missing", active := true
    nodes := [trigNode, condNode, actNode, endNode]
    edges :=
      [ ⟨"ed1", "t1", "c1", none⟩
      , ⟨"ed2", "c1", "a1", none⟩
      , ⟨"ed3", "a1", "e1", none⟩ ] }

/-- Witness for `validateFlow_handle_rules`: the missing-handle flow is
reported and aborts before execution; the yes-only flow validates
cleanly. -/
theorem validateFlow_handle_rules_witness :
    missingHandleMsg "c1"
        ((flowMissing.edges.filter (fun e => e.source == "c1")).filter
          (fun e => strFalsy e.sourceHandle)).length ∈ validateFlow flowMissing ∧
      executeFlow envNop 6 flowMissing evWhatsapp none =
        { success := false, executedNodes := [], errors := validateFlow flowMissing } ∧
      validateFlow flowHappy = [] := by
  obtain ⟨hA, hB, _⟩ := validateFlow_handle_rules flowMissing condNode envNop 6 evWhatsapp
  obtain ⟨_, _, hC⟩ := validateFlow_handle_rules flowHappy condNode envNop 6 evWhatsapp
  refine ⟨hA (List.cons_ne_nil _ _) ?_ rfl (by decide), hB ?_ (by decide),
    hC (List.cons_ne_nil _ _) (by decide) (by decide)⟩
  · exact List.mem_cons_of_mem _ (List.mem_cons_self _ _)
  · intro h
    have : (validateFlow flowMissing).length = 0 := by rw [h]; rfl
    revert this
    decide

/-- A condition node whose payload field is configured blank. -/
def condBlank : Node :=
  { id := "c9", type := "condition", data := .condition ⟨some "", some "EQUALS", some (.str "x")⟩ }

/-- A flow whose condition node has a blank field. -/
def flowBlank : Flow :=
  { id := "f9", name := "blank", active := true
    nodes := [trigNode, condBlank, endNode]
    edges := [⟨"ed1", "t1", "c9", none⟩, ⟨"ed2", "c9", "e1", some "yes"⟩] }

/-- **C9** (counterexample): a blank condition field does NOT leave the
run successful: the condition executor records a hard configuration
error, so `success` is `false` even though nothing else fails. -/
theorem blank_condition_field_cex :
    (executeFlow envNop 20 flowBlank evWhatsapp none).success = false ∧
      (executeFlow envNop 20 flowBlank evWhatsapp none).errors = [conditionFieldMsg "c9"] := by
  exact ⟨by decide, by decide⟩

/-- **C9** (amended): `evaluateCondition` itself treats a missing/blank
field as a `false` evaluation (a logged diagnostic only), but the
condition executor short-circuits first: it records the unconfigured-field
message as a result error and halts the path, making the run's `success`
`false`. -/
theorem blank_condition_field_behavior (cd : ConditionNodeData)
    (payload : List (String × JValue)) (env : Env) (fuel : Nat) (node : Node) (flow : Flow)
    (ctx : ExecutionContext)
    (hcd : strFalsy cd.field = true ∨ strEmpty (jsTrim (cd.field.getD "")) = true)
    (hnode : strFalsy (node.data.asCondition).field = true ∨
      strEmpty (jsTrim ((node.data.asCondition).field.getD "")) = true) :
    evaluateCondition cd payload = false ∧
      executeCondition env (fuel + 1) node flow ctx =
        (pushError ctx (conditionFieldMsg node.id), none) := by
  constructor
  · rw [evaluateCondition]
    rw [if_pos (Bool.or_eq_true _ _ |>.mpr hcd)]
  · rw [executeCondition]
    dsimp only
    rw [if_pos (Bool.or_eq_true _ _ |>.mpr hnode)]

/-- Witness for `blank_condition_field_behavior` on the blank-field
condition node. -/
theorem blank_condition_field_behavior_witness :
    evaluateCondition ⟨some "", some "EQUALS", some (.str "x")⟩ evWhatsapp.data = false ∧
      executeCondition envNop 5 condBlank flowBlank ctxFresh =
        (pushError ctxFresh (conditionFieldMsg "c9"), none) :=
  blank_condition_field_behavior ⟨some "", some "EQUALS", some (.str "x")⟩ evWhatsapp.data
    envNop 4 condBlank flowBlank ctxFresh (Or.inl rfl) (Or.inl rfl)

/-- **C10**: when the condition's (trimmed, `data.`-stripped) field path
resolves to `undefined` or `null`, `evaluateCondition` returns `false`
for every operator — in particular both `EQUALS` and `NOT_EQUALS` return
`false`, so on unresolved fields `NOT_EQUALS` is not the negation of
`EQUALS`. -/
theorem evaluateCondition_unresolved_field_false (cd : ConditionNodeData)
    (payload : List (String × JValue)) (s : String)
    (hfield : cd.field = some s)
    (hblank : strEmpty (jsTrim s) = false)
    (hres : getNestedValue payload (stripDataRoot (jsTrim s)) = none ∨
      getNestedValue payload (stripDataRoot (jsTrim s)) = some JValue.jnull) :
    evaluateCondition cd payload = false ∧
      evaluateCondition { cd with operator := some "EQUALS" } payload = false ∧
      evaluateCondition { cd with operator := some "NOT_EQUALS" } payload = false := by
  have main : ∀ op : Option String,
      evaluateCondition { cd with operator := op } payload = false := by
    intro op
    rw [evaluateCondition]
    dsimp only
    rw [hfield]
    dsimp only [Option.getD]
    rw [if_neg (by simp [strFalsy, strEmpty_of_trim hblank, hblank])]
    cases hres with
    | inl h => rw [h]
    | inr h => rw [h]
  exact ⟨main cd.operator, main (some "EQUALS"), main (some "NOT_EQUALS")⟩

/-- Witness for `evaluateCondition_unresolved_field_false` on a payload
missing the `lead.source` key. -/
theorem evaluateCondition_unresolved_field_false_witness :
    evaluateCondition ⟨some "data.lead.source", some "CONTAINS", some (.str "x")⟩
        [("lead", JValue.jobj [])] = false ∧
      evaluateCondition ⟨some "data.lead.source", some "EQUALS", some (.str "x")⟩
        [("lead", JValue.jobj [])] = false ∧
      evaluateCondition ⟨some "data.lead.source", some "NOT_EQUALS", some (.str "x")⟩
        [("lead", JValue.jobj [])] = false :=
  evaluateCondition_unresolved_field_false
    ⟨some "data.lead.source", some "CONTAINS", some (.str "x")⟩ [("lead", JValue.jobj [])]
    "data.lead.source" rfl rfl (Or.inl rfl)

end Workflow
